import Mathlib

/-!
Verification development for the RedInk backend core:
the outline parser (backend/services/outline.py) and the
history-record / image-directory reconciler (backend/services/history.py),
shallowly embedded in Lean 4. Python strings are modelled as Lean strings
(lists of characters), the SQLAlchemy-backed database as an explicit list of
record rows threaded through the operations, and the filesystem as a map from
paths to optional directory listings.
-/

/-- ASCII whitespace recognised by Python's str.strip / regex \S. -/
def pyIsSpace (c : Char) : Bool :=
  c = ' ' || c = '\t' || c = '\n' || c = '\r' || c = '\x0b' || c = '\x0c'

/-- Lowercase an ASCII letter, leaving other characters unchanged. -/
def lowerAscii (c : Char) : Char :=
  if 'A' ≤ c && c ≤ 'Z' then Char.ofNat (c.toNat + 32) else c

/-- Does the character list begin with the given pattern (exact match)? -/
def startsWithChars : List Char → List Char → Bool
  | [], _ => true
  | _ :: _, [] => false
  | p :: ps, c :: cs => (c = p) && startsWithChars ps cs

/-- Does the character list begin with the given lowercase pattern,
comparing case-insensitively on ASCII (models re.IGNORECASE on an ASCII literal)? -/
def ciStartsWithChars : List Char → List Char → Bool
  | [], _ => true
  | _ :: _, [] => false
  | p :: ps, c :: cs => (lowerAscii c = p) && ciStartsWithChars ps cs

/-- Strip leading and trailing whitespace from a character list (Python str.strip). -/
def pyStripChars (cs : List Char) : List Char :=
  ((cs.dropWhile pyIsSpace).reverse.dropWhile pyIsSpace).reverse

/-- Python str.strip on a string. -/
def pyStrip (s : String) : String :=
  String.mk (pyStripChars s.data)

/-- Python str.startswith. -/
def strStartsWith (s pat : String) : Bool :=
  startsWithChars pat.data s.data

/-- Python str.endswith. -/
def strEndsWith (s pat : String) : Bool :=
  startsWithChars pat.data.reverse s.data.reverse

/-- Digit run of Python's int() literal syntax after the first digit:
digits, with single underscores allowed only between digits.
Accumulates the value. -/
def pyDigitsCore : List Char → Nat → Option Nat
  | [], acc => some acc
  | c :: cs, acc =>
    if c.isDigit then pyDigitsCore cs (acc * 10 + (c.toNat - 48))
    else if c = '_' then
      match cs with
      | c2 :: cs2 =>
        if c2.isDigit then pyDigitsCore cs2 (acc * 10 + (c2.toNat - 48)) else none
      | [] => none
    else none

/-- Unsigned part of Python's int(): a non-empty digit sequence, underscores
only between digits; the first character must be a digit. -/
def pyParseNat : List Char → Option Nat
  | [] => none
  | c :: cs => if c.isDigit then pyDigitsCore cs (c.toNat - 48) else none

/-- Python's int(str) on ASCII input: strip whitespace, optional sign,
then a digit sequence (underscores between digits allowed); None models the
ValueError raised on anything else. -/
def pythonInt (s : String) : Option Int :=
  match pyStripChars s.data with
  | [] => none
  | '+' :: rest => (pyParseNat rest).map Int.ofNat
  | '-' :: rest => (pyParseNat rest).map (fun n => -(Int.ofNat n))
  | l => (pyParseNat l).map Int.ofNat

/-- The page marker literal from OutlineService._parse_outline. -/
def pageMarker : List Char := ['<', 'p', 'a', 'g', 'e', '>']

/-- Does the text contain the exact (case-sensitive) substring "<page>"?
Models the Python containment test: the expression <page> in outline_text. -/
def hasMarkerExact : List Char → Bool
  | [] => false
  | c :: cs => startsWithChars pageMarker (c :: cs) || hasMarkerExact cs

/-- Split on every case-insensitive occurrence of the page marker, scanning
left to right over non-overlapping matches, exactly as re.split with
re.IGNORECASE does. The fuel argument only drives structural recursion;
each step consumes at least one character, so fuel = length never runs out. -/
def splitCIAux : Nat → List Char → List Char → List (List Char)
  | _, [], acc => [acc.reverse]
  | 0, cs, acc => [acc.reverse ++ cs]
  | Nat.succ n, c :: cs, acc =>
    if ciStartsWithChars pageMarker (c :: cs) then
      acc.reverse :: splitCIAux n ((c :: cs).drop pageMarker.length) []
    else
      splitCIAux n cs (c :: acc)

/-- Segments of the text between case-insensitive occurrences of "<page>". -/
def splitCI (cs : List Char) : List (List Char) :=
  splitCIAux cs.length cs []

/-- Split on every exact occurrence of a separator, scanning left to right
over non-overlapping matches; models Python str.split(sep). Fuel as above. -/
def splitExactAux (sep : List Char) : Nat → List Char → List Char → List (List Char)
  | _, [], acc => [acc.reverse]
  | 0, cs, acc => [acc.reverse ++ cs]
  | Nat.succ n, c :: cs, acc =>
    if startsWithChars sep (c :: cs) then
      acc.reverse :: splitExactAux sep n ((c :: cs).drop sep.length) []
    else
      splitExactAux sep n cs (c :: acc)

/-- Python text.split("---"). -/
def splitDashes (cs : List Char) : List (List Char) :=
  splitExactAux ['-', '-', '-'] cs.length cs []

/-- Group captured by re.match applied to the pattern that matches a leading
"[", at least one non-whitespace character (captured), and "]". With the
greedy capture and backtracking, the group runs up to the last "]" inside
the maximal leading non-whitespace run after the "[", and must be non-empty. -/
def typeMatchGroup (cs : List Char) : Option (List Char) :=
  match cs with
  | '[' :: rest =>
    let run := rest.takeWhile (fun c => !pyIsSpace c)
    match run.reverse.findIdx? (fun c => c = ']') with
    | none => none
    | some i =>
      let pos := run.length - 1 - i
      if 1 ≤ pos then some (run.take pos) else none
  | _ => none

/-- Chinese page-type tag mapping with default "content"
(the type_mapping dict plus its .get default). -/
def type_mapping (t : String) : String :=
  if t = "封面" then "cover"
  else if t = "内容" then "content"
  else if t = "总结" then "summary"
  else "content"

/-- One parsed page descriptor: the dict with keys index, type, content. -/
structure ParsedPage where
  index : Nat
  type : String
  content : String
deriving DecidableEq

/-- Page type of a stripped segment: consult the leading bracketed tag when
the regex matches, defaulting to "content". -/
def pageTypeOf (t : String) : String :=
  match typeMatchGroup t.data with
  | some g => type_mapping (String.mk g)
  | none => "content"

/-- Loop body of OutlineService._parse_outline: enumerate the raw segments,
strip each, skip the ones that are empty after stripping, and emit a page
carrying the enumeration index of the raw segment together with its detected
type and stripped content. -/
def buildPages (pages_raw : List String) : List ParsedPage :=
  pages_raw.enum.filterMap (fun p =>
    let page_text := pyStrip p.2
    if page_text = "" then none
    else some { index := p.1, type := pageTypeOf page_text, content := page_text })

/-- OutlineService._parse_outline: choose the splitting strategy by exact
containment of "<page>" (splitting itself is case-insensitive), else split on
"---"; then build the pages from the raw segments. -/
def _parse_outline (outline_text : String) : List ParsedPage :=
  if hasMarkerExact outline_text.data then
    buildPages ((splitCI outline_text.data).map String.mk)
  else
    buildPages ((splitDashes outline_text.data).map String.mk)

/-- Row of the task_images table. The filename column is declared
nullable=False; an Option models the value handed to the ORM, where none is
a NULL that the database will reject at commit time. -/
structure TaskImageRow where
  image_index : Nat
  filename : Option String
deriving DecidableEq

/-- Row of the outline_pages table ((record_id, page_index) is unique). -/
structure OutlinePageRow where
  page_index : Int
  page_type : String
  content : String
deriving DecidableEq

/-- Row of the history_records table together with its owned pages and
images (the relationship collections). Timestamp columns are omitted. -/
structure HistoryRecordRow where
  id : String
  task_id : Option String
  status : String
  thumbnail : Option String
  outline_text : String
  pages : List OutlinePageRow
  images : List TaskImageRow
deriving DecidableEq

/-- One page dict inside an outline payload (page.get fields). -/
structure PagePayload where
  index : Int
  ptype : String
  content : String
deriving DecidableEq

/-- Outline argument of update_record: the dict with keys raw and pages. -/
structure OutlinePayload where
  raw : String
  pages : List PagePayload
deriving DecidableEq

/-- Images argument of update_record: images.get task_id (absent modelled as
none) and images.get generated (defaulting to the empty list); generated
entries may be null. -/
structure ImagesPayload where
  task_id : Option String
  generated : List (Option String)
deriving DecidableEq

/-- Apply the outline branch of update_record: when present, replace
outline_text and rebuild the pages from the payload. -/
def applyOutline (r : HistoryRecordRow) (outline : Option OutlinePayload) : HistoryRecordRow :=
  match outline with
  | none => r
  | some o =>
    { r with
      outline_text := o.raw,
      pages := o.pages.map (fun p =>
        { page_index := p.index, page_type := p.ptype, content := p.content }) }

/-- Apply the images branch of update_record: a truthy task_id (non-empty
string) overwrites the record's task_id; a non-empty generated list replaces
the TaskImage rows position by position, while an empty list leaves them
untouched. -/
def applyImages (r : HistoryRecordRow) (images : Option ImagesPayload) : HistoryRecordRow :=
  match images with
  | none => r
  | some im =>
    let r1 :=
      match im.task_id with
      | some t => if t ≠ "" then { r with task_id := some t } else r
      | none => r
    if im.generated ≠ [] then
      { r1 with images := im.generated.enum.map (fun p => ⟨p.1, p.2⟩) }
    else r1

/-- Apply the status branch of update_record. -/
def applyStatus (r : HistoryRecordRow) (status : Option String) : HistoryRecordRow :=
  match status with
  | none => r
  | some s => { r with status := s }

/-- Apply the thumbnail branch of update_record; passing None means
"leave unchanged" (the thumbnail column is never cleared through update). -/
def applyThumbnail (r : HistoryRecordRow) (thumbnail : Option String) : HistoryRecordRow :=
  match thumbnail with
  | none => r
  | some t => { r with thumbnail := some t }

/-- Commit-time constraint check: every TaskImage filename is non-NULL
(the column is nullable=False) and page indices are unique within the record
(the (record_id, page_index) unique constraint). A violation raises
IntegrityError, which update_record turns into a rollback. -/
def commit_ok (r : HistoryRecordRow) : Bool :=
  r.images.all (fun i => i.filename.isSome) &&
    decide ((r.pages.map (fun p => p.page_index)).Nodup)

/-- HistoryService.update_record: locate the record by primary key (False
when absent), apply the optional outline / images / status / thumbnail
branches, and commit; a constraint violation rolls the transaction back and
returns False with the database unchanged. -/
def update_record (db : List HistoryRecordRow) (record_id : String)
    (outline : Option OutlinePayload) (images : Option ImagesPayload)
    (status : Option String) (thumbnail : Option String) :
    Bool × List HistoryRecordRow :=
  match db.find? (fun r => decide (r.id = record_id)) with
  | none => (false, db)
  | some r =>
    let r2 := applyThumbnail (applyStatus (applyImages (applyOutline r outline) images) status)
      thumbnail
    if commit_ok r2 then
      (true, db.map (fun x => if x.id = record_id then r2 else x))
    else
      (false, db)

/-- Sort key of scan_and_sync_task_images: int of the substring before the
first dot (Python filename.split at the dot, first component), with 999 when
the int conversion raises. -/
def get_index (filename : String) : Int :=
  match pythonInt (String.mk (filename.data.takeWhile (fun c => c ≠ '.'))) with
  | some n => n
  | none => 999

/-- Comparison by get_index, the key order used by the list sort. -/
def imageOrd (a b : String) : Prop := get_index a ≤ get_index b

instance : DecidableRel imageOrd := fun a b => Int.decLe (get_index a) (get_index b)

instance : IsTotal String imageOrd := ⟨fun a b => Int.le_total (get_index a) (get_index b)⟩

instance : IsTrans String imageOrd :=
  ⟨fun _ _ _ hab hbc => Int.le_trans hab hbc⟩

/-- Stable ascending sort by get_index (Python list.sort with a key is a
stable comparison sort; insertion sort realises the same function). -/
def sortImageFiles (files : List String) : List String :=
  List.insertionSort imageOrd files

/-- Directory filter of scan_and_sync_task_images: skip names starting with
thumb_, keep names ending in .png, .jpg or .jpeg (case-sensitive). -/
def scanImageFiles (listing : List String) : List String :=
  listing.filter (fun f =>
    !strStartsWith f "thumb_" &&
      (strEndsWith f ".png" || strEndsWith f ".jpg" || strEndsWith f ".jpeg"))

/-- Path join for {history_dir}/{task_id} (os.path.join of two relative
segments inserts one separator). -/
def joinPath (a b : String) : String := a ++ "/" ++ b

/-- Status chain of scan_and_sync_task_images: draft when no file was found,
completed when at least as many files as expected pages, partial otherwise. -/
def derive_status (expected_count actual_count : Nat) : String :=
  if actual_count = 0 then "draft"
  else if actual_count ≥ expected_count then "completed"
  else "partial"

/-- Result dict of scan_and_sync_task_images; absent keys are modelled as
none / false. -/
structure SyncResult where
  success : Bool
  error : Option String
  record_id : Option String
  task_id : Option String
  images_count : Option Nat
  images : Option (List String)
  status : Option String
  no_record : Bool
deriving DecidableEq

/-- HistoryService.scan_and_sync_task_images. The filesystem is a map from a
path to an optional directory listing (none: missing or not a directory).
List the task directory, filter and sort the image files, and when a record
with this task_id exists, derive the status and write images, status and
thumbnail through update_record (whose success flag the scan ignores);
otherwise report the scan as orphaned without touching the database. -/
def scan_and_sync_task_images (fs : String → Option (List String))
    (history_dir : String) (db : List HistoryRecordRow) (task_id : String) :
    SyncResult × List HistoryRecordRow :=
  let task_dir := joinPath history_dir task_id
  match fs task_dir with
  | none =>
    ({ success := false, error := some ("任务目录不存在: " ++ task_id), record_id := none,
       task_id := none, images_count := none, images := none, status := none,
       no_record := false }, db)
  | some listing =>
    let image_files := sortImageFiles (scanImageFiles listing)
    match db.find? (fun r => decide (r.task_id = some task_id)) with
    | some record =>
      let expected_count := record.pages.length
      let actual_count := image_files.length
      let status := derive_status expected_count actual_count
      let db2 := (update_record db record.id none
        (some { task_id := some task_id, generated := image_files.map some })
        (some status)
        (match image_files with | f :: _ => some f | [] => none)).2
      ({ success := true, error := none, record_id := some record.id,
         task_id := some task_id, images_count := some actual_count,
         images := some image_files, status := some status, no_record := false }, db2)
    | none =>
      ({ success := true, error := none, record_id := none, task_id := some task_id,
         images_count := some image_files.length, images := some image_files,
         status := none, no_record := true }, db)

/-- Modelled from the spec: backend/routes/image_routes.py and its helper
_validate_path_segment are not under src/ (only the test
test_validate_path_segment_blocks_traversal is). Per the spec, a path segment
equal to ".." or containing a path separator is rejected before any
filesystem path is constructed from it. -/
def _validate_path_segment (segment : String) : Bool :=
  !(segment = ".." || segment.data.contains '/' || segment.data.contains '\\')

/-- Modelled from the spec: the route-level entry point that validates the
task_id segment and only then runs the reconciler; an invalid segment is
rejected before any path is constructed or joined. -/
def scan_with_validation (fs : String → Option (List String))
    (history_dir : String) (db : List HistoryRecordRow) (task_id : String) :
    Except String (SyncResult × List HistoryRecordRow) :=
  if _validate_path_segment task_id then
    Except.ok (scan_and_sync_task_images fs history_dir db task_id)
  else
    Except.error "invalid path segment"

/-- Well-formed database state: primary keys are unique, and every persisted
row satisfies the schema constraints (non-NULL filenames, unique page
indices per record). -/
def WFdb (db : List HistoryRecordRow) : Prop :=
  (db.map (fun r => r.id)).Nodup ∧
    ∀ r ∈ db, r.images.all (fun i => i.filename.isSome) = true ∧
      (r.pages.map (fun p => p.page_index)).Nodup

/-- Record value produced by the update that scan_and_sync_task_images
issues for a linked record: task_id overwritten when truthy, images replaced
only when the scanned list is non-empty, status overwritten, thumbnail
overwritten only when a first filename exists. -/
def scanUpdatedRow (r : HistoryRecordRow) (tid st : String) (files : List String)
    (th : Option String) : HistoryRecordRow :=
  { r with
    task_id := if tid ≠ "" then some tid else r.task_id,
    images := if files = [] then r.images
      else (List.enumFrom 0 files).map (fun p => (⟨p.1, some p.2⟩ : TaskImageRow)),
    status := st,
    thumbnail := (match th with | some t => some t | none => r.thumbnail) }

/-- After replacing every row whose id is rid, a lookup by rid returns the
replacement, provided some row with that id was found before. -/
lemma find?_map_update_id (db : List HistoryRecordRow) (rid : String)
    (r r2 : HistoryRecordRow)
    (hf : db.find? (fun x => decide (x.id = rid)) = some r) (h2 : r2.id = rid) :
    (db.map (fun x => if x.id = rid then r2 else x)).find?
      (fun x => decide (x.id = rid)) = some r2 := by
  induction db with
  | nil => simp at hf
  | cons a tl ih =>
    by_cases ha : a.id = rid
    · simp only [List.map_cons, if_pos ha]
      exact List.find?_cons_of_pos _ (by simp [h2])
    · rw [List.find?_cons_of_neg _ (by simp [ha])] at hf
      simp only [List.map_cons, if_neg ha]
      rw [List.find?_cons_of_neg _ (by simp [ha])]
      exact ih hf

/-- With unique primary keys, lookup of a member row by its own id returns
exactly that row. -/
lemma find_id_of_nodup (db : List HistoryRecordRow) (r : HistoryRecordRow)
    (hnd : (db.map (fun x => x.id)).Nodup) (hr : r ∈ db) :
    db.find? (fun x => decide (x.id = r.id)) = some r := by
  induction db with
  | nil => simp at hr
  | cons a tl ih =>
    rw [List.map_cons, List.nodup_cons] at hnd
    rcases List.mem_cons.mp hr with rfl | hmem
    · exact List.find?_cons_of_pos _ (by simp)
    · have hne : a.id ≠ r.id := fun h => hnd.1 (h ▸ List.mem_map_of_mem (fun x => x.id) hmem)
      rw [List.find?_cons_of_neg _ (by simp [hne])]
      exact ih hnd.2 hmem

/-- After replacing (by id) the first row matching a task_id, a lookup by
that task_id returns the replacement, provided ids are unique and the
replacement still carries the task_id. -/
lemma find?_map_update_taskid (db : List HistoryRecordRow) (tid : String)
    (r r2 : HistoryRecordRow)
    (hnd : (db.map (fun x => x.id)).Nodup)
    (hf : db.find? (fun x => decide (x.task_id = some tid)) = some r)
    (h2 : r2.id = r.id) (ht : r2.task_id = some tid) :
    (db.map (fun x => if x.id = r.id then r2 else x)).find?
      (fun x => decide (x.task_id = some tid)) = some r2 := by
  induction db with
  | nil => simp at hf
  | cons a tl ih =>
    rw [List.map_cons, List.nodup_cons] at hnd
    by_cases hpa : a.task_id = some tid
    · rw [List.find?_cons_of_pos _ (by simp [hpa])] at hf
      have ha : a = r := by injection hf
      subst ha
      simp only [List.map_cons, if_pos rfl]
      exact List.find?_cons_of_pos _ (by simp [ht])
    · rw [List.find?_cons_of_neg _ (by simp [hpa])] at hf
      have hmem : r ∈ tl := List.mem_of_find?_eq_some hf
      have hne : a.id ≠ r.id := fun h => hnd.1 (h ▸ List.mem_map_of_mem (fun x => x.id) hmem)
      simp only [List.map_cons, if_neg hne]
      rw [List.find?_cons_of_neg _ (by simp [hpa])]
      exact ih hnd.2 hf

/-- Enumerated TaskImage rows built from a payload have non-NULL filenames
exactly when the payload entries are non-null. -/
lemma all_isSome_enumFrom_map (n : Nat) (gen : List (Option String)) :
    ((List.enumFrom n gen).map (fun p => (⟨p.1, p.2⟩ : TaskImageRow))).all
      (fun i => i.filename.isSome) = gen.all (fun o => o.isSome) := by
  induction gen generalizing n with
  | nil => rfl
  | cons a tl ih => simp [List.enumFrom_cons, ih]

/-- Enumerating a list of filenames wrapped in some equals wrapping after
enumerating. -/
lemma enumFrom_map_some (n : Nat) (files : List String) :
    (List.enumFrom n (files.map some)).map (fun p => (⟨p.1, p.2⟩ : TaskImageRow)) =
      (List.enumFrom n files).map (fun p => (⟨p.1, some p.2⟩ : TaskImageRow)) := by
  induction files generalizing n with
  | nil => rfl
  | cons a tl ih => simp [List.enumFrom_cons, ih]

/-- Field-level characterisation of the record produced by the update that
scan_and_sync_task_images issues (outline absent, images payload with the
scanned filename list, a status, an optional thumbnail). -/
lemma scan_update_fields (r : HistoryRecordRow) (tid st : String)
    (files : List String) (th : Option String) :
    applyThumbnail (applyStatus (applyImages (applyOutline r none)
        (some { task_id := some tid, generated := files.map some })) (some st)) th =
      scanUpdatedRow r tid st files th := by
  simp only [applyOutline, applyImages, applyStatus, applyThumbnail, scanUpdatedRow]
  by_cases htid : tid = "" <;>
    by_cases hfl : files = [] <;>
      cases th <;>
        simp [htid, hfl, List.enum, enumFrom_map_some]

/-- Rows built by the reconciler's replacement always carry non-NULL
filenames. -/
lemma all_isSome_rows (n : Nat) (files : List String) :
    ((List.enumFrom n files).map (fun p => (⟨p.1, some p.2⟩ : TaskImageRow))).all
      (fun i => i.filename.isSome) = true := by
  induction files generalizing n with
  | nil => rfl
  | cons a tl ih => simp [List.enumFrom_cons, ih]

/-- The reconciler's replacement record satisfies the commit-time schema
constraints whenever the old record did. -/
lemma commit_ok_scanUpdatedRow (r : HistoryRecordRow) (tid st : String)
    (files : List String) (th : Option String)
    (himg : r.images.all (fun i => i.filename.isSome) = true)
    (hpg : (r.pages.map (fun p => p.page_index)).Nodup) :
    commit_ok (scanUpdatedRow r tid st files th) = true := by
  unfold commit_ok scanUpdatedRow
  by_cases hfl : files = [] <;> simp [hfl, himg, hpg, all_isSome_rows]

/-- The reconciler's replacement keeps the record id. -/
lemma scanUpdatedRow_id (r : HistoryRecordRow) (tid st : String)
    (files : List String) (th : Option String) :
    (scanUpdatedRow r tid st files th).id = r.id := rfl

/-- The reconciler's replacement keeps the outline pages. -/
lemma scanUpdatedRow_pages (r : HistoryRecordRow) (tid st : String)
    (files : List String) (th : Option String) :
    (scanUpdatedRow r tid st files th).pages = r.pages := rfl

/-- The reconciler's replacement still carries the task_id it reconciled. -/
lemma scanUpdatedRow_task_id (r : HistoryRecordRow) (tid st : String)
    (files : List String) (th : Option String) (hrt : r.task_id = some tid) :
    (scanUpdatedRow r tid st files th).task_id = some tid := by
  unfold scanUpdatedRow
  by_cases h : tid = "" <;> simp [h, hrt]

/-- On a well-formed database, the update issued by the reconciler for a
record found by task_id commits and rewrites exactly the rows with that
record's id. -/
lemma update_record_scan (db : List HistoryRecordRow) (tid st : String)
    (files : List String) (th : Option String) (r : HistoryRecordRow)
    (hwf : WFdb db)
    (hr : db.find? (fun x => decide (x.task_id = some tid)) = some r) :
    update_record db r.id none (some { task_id := some tid, generated := files.map some })
        (some st) th =
      (true, db.map (fun x => if x.id = r.id then scanUpdatedRow r tid st files th else x)) := by
  have hmem : r ∈ db := List.mem_of_find?_eq_some hr
  have hfid : db.find? (fun x => decide (x.id = r.id)) = some r :=
    find_id_of_nodup db r hwf.1 hmem
  have hcon := hwf.2 r hmem
  unfold update_record
  rw [hfid]
  dsimp only
  rw [scan_update_fields,
    if_pos (commit_ok_scanUpdatedRow r tid st files th hcon.1 hcon.2)]





/-- C1: the claim states that output indices enumerate only the non-empty
segments, densely from 0, and that the example text yields indices [0, 1].
The code instead enumerates the raw segments before dropping the empty ones,
so the empty leading and middle segments consume indices and the example
yields pages with indices [1, 3]. This evaluation exhibits the divergence at
the claim's own input (the repository test asserts [0, 1] for the same
shape of input). -/
theorem claim_C1 :
    _parse_outline "<page>\nA\n<page>\n\n<page>\nB" =
      [{ index := 1, type := "content", content := "A" },
       { index := 3, type := "content", content := "B" }] ∧
    (_parse_outline "<page>\nA\n<page>\n\n<page>\nB").map (fun p => p.index) ≠ [0, 1] := by
  decide

/-- C3 counterexample: a text containing the marker only in upper case,
together with the legacy marker, is split on "---" rather than on the page
marker: the containment test that selects the strategy is case-sensitive.
The first page's content retains the literal "<PAGE>", which could not
happen had the split been on the (case-insensitive) marker; the second
conjunct shows what marker-splitting would have produced instead. -/
theorem claim_C3_counterexample :
    _parse_outline "<PAGE>\nA\n---\nB" =
      [{ index := 0, type := "content", content := "<PAGE>\nA" },
       { index := 1, type := "content", content := "B" }] ∧
    (splitCI "<PAGE>\nA\n---\nB".data).map String.mk = ["", "\nA\n---\nB"] := by
  decide

/-- C3 amended: the strategy choice tests exact (case-sensitive) containment
of "<page>"; when the exact marker occurs, splitting is on every
case-insensitive occurrence and "---" is never used (the mixed example keeps
"---" inside a page while both "<page>" and "<PAGE>" split); when it does
not occur, splitting is on "---". Exactly one strategy is chosen per call. -/
theorem claim_C3_amended :
    (∀ text : String, hasMarkerExact text.data = false →
        _parse_outline text = buildPages ((splitDashes text.data).map String.mk)) ∧
    (∀ text : String, hasMarkerExact text.data = true →
        _parse_outline text = buildPages ((splitCI text.data).map String.mk)) ∧
    _parse_outline "<page>\nA\n---\nB\n<PAGE>\nC" =
      [{ index := 1, type := "content", content := "A\n---\nB" },
       { index := 2, type := "content", content := "C" }] := by
  refine ⟨fun text h => ?_, fun text h => ?_, by decide⟩ <;> simp [_parse_outline, h]

/-- C3 amended, witness: a concrete text without the exact marker is parsed
through the "---" strategy. -/
theorem claim_C3_amended_witness :
    _parse_outline "A\n---\nB" = buildPages ((splitDashes "A\n---\nB".data).map String.mk) :=
  claim_C3_amended.1 "A\n---\nB" (by decide)

/-- C7: the claim (and the repository test) state that a null entry in the
generated list is coerced to the empty string and three rows are persisted.
The code hands the null straight to the TaskImage filename column, which is
declared NOT NULL, so the commit fails, the transaction rolls back, and
update_record returns False with no rows persisted. -/
theorem claim_C7 :
    update_record [⟨"r1", none, "draft", none, "", [], []⟩] "r1" none
        (some ⟨some "task_test", [some "0.png", none, some "2.png"]⟩) none none =
      (false, [⟨"r1", none, "draft", none, "", [], []⟩]) := by
  decide

/-- C8 counterexample: a filename whose prefix does not parse is keyed 999,
so it sorts before a parseable filename with prefix 1000 — refuting the claim
that non-parseable names sort after all parseable ones even in sets with
numeric prefixes of 999 or greater. -/
theorem claim_C8_counterexample :
    sortImageFiles ["1000.png", "abc.png"] = ["abc.png", "1000.png"] ∧
    pythonInt (String.mk ("abc.png".data.takeWhile (fun c => c ≠ '.'))) = none ∧
    pythonInt (String.mk ("1000.png".data.takeWhile (fun c => c ≠ '.'))) = some 1000 := by
  decide

/-- C8 amended: a filename whose prefix does not parse is treated as key
999, so in the reconciler's ordering it precedes only parseable filenames
whose value is at least 999: whenever a non-parseable name appears before a
parseable one in the sorted output, that one's value is ≥ 999 (equivalently,
non-parseable names sort after every parseable name with value below 999,
but not after values of 999 or more). -/
theorem claim_C8_amended (l : List String) (i j : Nat)
    (hi : i < (sortImageFiles l).length) (hj : j < (sortImageFiles l).length)
    (hij : i < j)
    (hfail : pythonInt (String.mk
      (((sortImageFiles l).get ⟨i, hi⟩).data.takeWhile (fun c => c ≠ '.'))) = none)
    (v : Int)
    (hok : pythonInt (String.mk
      (((sortImageFiles l).get ⟨j, hj⟩).data.takeWhile (fun c => c ≠ '.'))) = some v) :
    999 ≤ v := by
  have hsorted : List.Sorted imageOrd (sortImageFiles l) :=
    List.sorted_insertionSort imageOrd l
  have hrel : imageOrd ((sortImageFiles l).get ⟨i, hi⟩) ((sortImageFiles l).get ⟨j, hj⟩) :=
    hsorted.rel_get_of_lt hij
  unfold imageOrd get_index at hrel
  rw [hfail, hok] at hrel
  exact hrel

/-- C8 amended, witness: in the concrete sorted list the non-parseable name
sits at position 0 and the parseable name after it carries value 1000 ≥ 999. -/
theorem claim_C8_amended_witness :
    sortImageFiles ["abc.png", "1000.png"] = ["abc.png", "1000.png"] ∧ (999 : Int) ≤ 1000 :=
  ⟨by decide,
    claim_C8_amended ["abc.png", "1000.png"] 0 1 (by decide) (by decide) (by decide)
      (by decide) 1000 (by decide)⟩

/-- C9: the route-level validation (modelled from the spec, since
image_routes.py is not under src/) rejects a task_id equal to ".." or
containing a path separator before the reconciler runs: the guarded entry
point returns an error for every filesystem and database, so no path is ever
joined from such a segment. -/
theorem claim_C9 (fs : String → Option (List String)) (hd : String)
    (db : List HistoryRecordRow) (tid : String)
    (h : tid = ".." ∨ tid.data.contains '/' = true ∨ tid.data.contains '\\' = true) :
    scan_with_validation fs hd db tid = Except.error "invalid path segment" := by
  unfold scan_with_validation _validate_path_segment
  rcases h with h | h | h <;> simp_all

/-- C9 witness: the traversal segment ".." is rejected on a concrete
filesystem and database. -/
theorem claim_C9_witness :
    scan_with_validation (fun _ => none) "h" [] ".." = Except.error "invalid path segment" :=
  claim_C9 (fun _ => none) "h" [] ".." (Or.inl rfl)

/-- C2 counterexample: a record with an existing TaskImage row and thumbnail
is reconciled against a directory holding no image files. The claim says the
image list is replaced by the empty scan and the thumbnail removed; the code
leaves both untouched because update_record treats an empty generated list
as "no change" and a None thumbnail argument as "do not set" — only the
status is re-derived to draft. -/
theorem claim_C2_counterexample :
    (scan_and_sync_task_images
        (fun p => if p = "h/t1" then some ["notes.txt"] else none) "h"
        [⟨"r1", some "t1", "completed", some "old.png", "", [], [⟨0, some "old.png"⟩]⟩]
        "t1").2 =
      [⟨"r1", some "t1", "draft", some "old.png", "", [], [⟨0, some "old.png"⟩]⟩] := by
  decide

/-- C2 amended: on a well-formed database, reconciling a task with a linked
record replaces the TaskImage list by the scanned filenames (by position)
and sets the thumbnail to the first filename only when the scan found at
least one file; when the scan is empty, the previous image rows and
thumbnail are left unchanged, and in both cases the status is set to the
derived one. -/
theorem claim_C2_amended (fs : String → Option (List String)) (hd tid : String)
    (db : List HistoryRecordRow) (listing : List String) (r : HistoryRecordRow)
    (hwf : WFdb db)
    (hfs : fs (joinPath hd tid) = some listing)
    (hr : db.find? (fun x => decide (x.task_id = some tid)) = some r) :
    ∃ r2, (scan_and_sync_task_images fs hd db tid).2.find?
        (fun x => decide (x.id = r.id)) = some r2 ∧
      r2.images = (if sortImageFiles (scanImageFiles listing) = [] then r.images
        else (List.enumFrom 0 (sortImageFiles (scanImageFiles listing))).map
          (fun p => (⟨p.1, some p.2⟩ : TaskImageRow))) ∧
      r2.thumbnail = (match sortImageFiles (scanImageFiles listing) with
        | f :: _ => some f
        | [] => r.thumbnail) ∧
      r2.status = derive_status r.pages.length (sortImageFiles (scanImageFiles listing)).length := by
  have hmem : r ∈ db := List.mem_of_find?_eq_some hr
  have hfid : db.find? (fun x => decide (x.id = r.id)) = some r :=
    find_id_of_nodup db r hwf.1 hmem
  have hupd := update_record_scan db tid
    (derive_status r.pages.length (sortImageFiles (scanImageFiles listing)).length)
    (sortImageFiles (scanImageFiles listing))
    (match sortImageFiles (scanImageFiles listing) with | f :: _ => some f | [] => none)
    r hwf hr
  refine ⟨scanUpdatedRow r tid
    (derive_status r.pages.length (sortImageFiles (scanImageFiles listing)).length)
    (sortImageFiles (scanImageFiles listing))
    (match sortImageFiles (scanImageFiles listing) with | f :: _ => some f | [] => none),
    ?_, ?_, ?_, rfl⟩
  · simp only [scan_and_sync_task_images, hfs, hr, hupd]
    exact find?_map_update_id db r.id r _ hfid rfl
  · rfl
  · unfold scanUpdatedRow
    cases sortImageFiles (scanImageFiles listing) <;> rfl

/-- C2 amended, witness: a concrete reconciliation with one scanned file
replaces the single old image row and the thumbnail. -/
theorem claim_C2_amended_witness :
    ∃ r2, (scan_and_sync_task_images
        (fun p => if p = "h2/t2" then some ["0.png"] else none) "h2"
        [⟨"id2", some "t2", "draft", some "thumbold.png", "", [], [⟨0, some "z.png"⟩]⟩]
        "t2").2.find?
        (fun x => decide (x.id = "id2")) = some r2 ∧
      r2.images = (if sortImageFiles (scanImageFiles ["0.png"]) = []
        then [⟨0, some "z.png"⟩]
        else (List.enumFrom 0 (sortImageFiles (scanImageFiles ["0.png"]))).map
          (fun p => (⟨p.1, some p.2⟩ : TaskImageRow))) ∧
      r2.thumbnail = (match sortImageFiles (scanImageFiles ["0.png"]) with
        | f :: _ => some f
        | [] => some "thumbold.png") ∧
      r2.status = derive_status
        ([] : List OutlinePageRow).length (sortImageFiles (scanImageFiles ["0.png"])).length :=
  claim_C2_amended (fun p => if p = "h2/t2" then some ["0.png"] else none) "h2" "t2"
    [⟨"id2", some "t2", "draft", some "thumbold.png", "", [], [⟨0, some "z.png"⟩]⟩]
    ["0.png"]
    ⟨"id2", some "t2", "draft", some "thumbold.png", "", [], [⟨0, some "z.png"⟩]⟩
    (by constructor <;> decide) (by decide) (by decide)

/-- C4: for a reconciliation whose directory exists and whose task has a
linked record, the returned status is exactly the one derived from the
record's page count and the number of included files, and the derivation
satisfies the claimed thresholds: draft exactly when no file was found,
completed exactly when files were found and at least as many as expected
(including a zero expectation), partial exactly otherwise; in particular
for three expected pages: 0 files draft, 2 partial, 3 and 4 completed. -/
theorem claim_C4 (fs : String → Option (List String)) (hd tid : String)
    (db : List HistoryRecordRow) (listing : List String) (r : HistoryRecordRow)
    (hfs : fs (joinPath hd tid) = some listing)
    (hr : db.find? (fun x => decide (x.task_id = some tid)) = some r) :
    (scan_and_sync_task_images fs hd db tid).1.status =
      some (derive_status r.pages.length (sortImageFiles (scanImageFiles listing)).length) ∧
    (∀ e a : Nat, (derive_status e a = "draft" ↔ a = 0) ∧
      (derive_status e a = "completed" ↔ a ≠ 0 ∧ e ≤ a) ∧
      (derive_status e a = "partial" ↔ 0 < a ∧ a < e)) ∧
    derive_status 3 0 = "draft" ∧ derive_status 3 2 = "partial" ∧
    derive_status 3 3 = "completed" ∧ derive_status 3 4 = "completed" := by
  refine ⟨?_, ?_, by decide, by decide, by decide, by decide⟩
  · simp [scan_and_sync_task_images, hfs, hr]
  · intro e a
    have hne1 : ¬(("draft" : String) = "completed") := by decide
    have hne2 : ¬(("draft" : String) = "partial") := by decide
    have hne3 : ¬(("completed" : String) = "draft") := by decide
    have hne4 : ¬(("completed" : String) = "partial") := by decide
    have hne5 : ¬(("partial" : String) = "draft") := by decide
    have hne6 : ¬(("partial" : String) = "completed") := by decide
    unfold derive_status
    split_ifs with h1 h2
    · simp [h1, hne1, hne2]
    · simp [h1, h2, hne3, hne4]
    · simp [h1, h2, hne5, hne6]
      omega

/-- C4 witness: three expected pages against two scanned files yields a
partial status in the returned result. -/
theorem claim_C4_witness :
    (scan_and_sync_task_images
        (fun p => if p = "hist/t4" then some ["0.png", "1.png"] else none) "hist"
        [⟨"id4", some "t4", "draft", none, "",
          [⟨0, "content", "a"⟩, ⟨1, "content", "b"⟩, ⟨2, "content", "c"⟩], []⟩]
        "t4").1.status = some "partial" :=
  ((claim_C4 (fun p => if p = "hist/t4" then some ["0.png", "1.png"] else none) "hist" "t4"
    [⟨"id4", some "t4", "draft", none, "",
      [⟨0, "content", "a"⟩, ⟨1, "content", "b"⟩, ⟨2, "content", "c"⟩], []⟩]
    ["0.png", "1.png"]
    ⟨"id4", some "t4", "draft", none, "",
      [⟨0, "content", "a"⟩, ⟨1, "content", "b"⟩, ⟨2, "content", "c"⟩], []⟩
    (by decide) (by decide)).1).trans (by decide)

/-- C5: on a well-formed database, running the reconciler twice for the same
task over an unchanged filesystem yields the same result both times — the
same filename list, the same counts, and the same derived status — because
the first run's update changes neither the record's page count nor which
record the task_id resolves to. -/
theorem claim_C5 (fs : String → Option (List String)) (hd tid : String)
    (db : List HistoryRecordRow) (hwf : WFdb db) :
    (scan_and_sync_task_images fs hd (scan_and_sync_task_images fs hd db tid).2 tid).1 =
      (scan_and_sync_task_images fs hd db tid).1 := by
  cases hfs : fs (joinPath hd tid) with
  | none => simp [scan_and_sync_task_images, hfs]
  | some listing =>
    cases hr : db.find? (fun x => decide (x.task_id = some tid)) with
    | none => simp [scan_and_sync_task_images, hfs, hr]
    | some r =>
      have hrt : r.task_id = some tid := by
        have hsome := List.find?_some hr
        simpa using hsome
      have hupd := update_record_scan db tid
        (derive_status r.pages.length (sortImageFiles (scanImageFiles listing)).length)
        (sortImageFiles (scanImageFiles listing))
        (match sortImageFiles (scanImageFiles listing) with | f :: _ => some f | [] => none)
        r hwf hr
      have hfind2 := find?_map_update_taskid db tid r
        (scanUpdatedRow r tid
          (derive_status r.pages.length (sortImageFiles (scanImageFiles listing)).length)
          (sortImageFiles (scanImageFiles listing))
          (match sortImageFiles (scanImageFiles listing) with | f :: _ => some f | [] => none))
        hwf.1 hr
        (scanUpdatedRow_id r tid _ _ _)
        (scanUpdatedRow_task_id r tid _ _ _ hrt)
      simp only [scan_and_sync_task_images, hfs, hr, hupd, hfind2]
      simp only [scanUpdatedRow_id, scanUpdatedRow_pages]

/-- C5 witness: a concrete double reconciliation returns the same result
twice. -/
theorem claim_C5_witness :
    (scan_and_sync_task_images
        (fun p => if p = "h5/t5" then some ["1.png", "0.png", "thumb_0.png", "x.txt"] else none)
        "h5"
        (scan_and_sync_task_images
          (fun p => if p = "h5/t5" then some ["1.png", "0.png", "thumb_0.png", "x.txt"] else none)
          "h5" [⟨"id5", some "t5", "draft", none, "", [⟨0, "content", "a"⟩], []⟩] "t5").2
        "t5").1 =
      (scan_and_sync_task_images
        (fun p => if p = "h5/t5" then some ["1.png", "0.png", "thumb_0.png", "x.txt"] else none)
        "h5" [⟨"id5", some "t5", "draft", none, "", [⟨0, "content", "a"⟩], []⟩] "t5").1 :=
  claim_C5 (fun p => if p = "h5/t5" then some ["1.png", "0.png", "thumb_0.png", "x.txt"] else none)
    "h5" "t5" [⟨"id5", some "t5", "draft", none, "", [⟨0, "content", "a"⟩], []⟩]
    (by constructor <;> decide)

/-- C6: when the task directory exists but no record carries the task_id,
the reconciler reports success with no_record set and leaves the database
completely unchanged — no row is created, modified or deleted. -/
theorem claim_C6 (fs : String → Option (List String)) (hd tid : String)
    (db : List HistoryRecordRow) (listing : List String)
    (hfs : fs (joinPath hd tid) = some listing)
    (hr : db.find? (fun x => decide (x.task_id = some tid)) = none) :
    (scan_and_sync_task_images fs hd db tid).1.no_record = true ∧
    (scan_and_sync_task_images fs hd db tid).1.success = true ∧
    (scan_and_sync_task_images fs hd db tid).2 = db := by
  simp [scan_and_sync_task_images, hfs, hr]

/-- C6 witness: a concrete orphan reconciliation leaves the single
unrelated record untouched. -/
theorem claim_C6_witness :
    (scan_and_sync_task_images (fun p => if p = "h6/t6" then some ["0.png"] else none)
        "h6" [⟨"id6", some "other", "draft", none, "", [], []⟩] "t6").1.no_record = true ∧
    (scan_and_sync_task_images (fun p => if p = "h6/t6" then some ["0.png"] else none)
        "h6" [⟨"id6", some "other", "draft", none, "", [], []⟩] "t6").1.success = true ∧
    (scan_and_sync_task_images (fun p => if p = "h6/t6" then some ["0.png"] else none)
        "h6" [⟨"id6", some "other", "draft", none, "", [], []⟩] "t6").2 =
      [⟨"id6", some "other", "draft", none, "", [], []⟩] :=
  claim_C6 (fun p => if p = "h6/t6" then some ["0.png"] else none) "h6" "t6"
    [⟨"id6", some "other", "draft", none, "", [], []⟩] ["0.png"] (by decide) (by decide)

/-- C10: updating an existing record with an images payload whose task_id is
a non-empty string overwrites the record's task_id attribute with that value
(in addition to the documented image effects), whenever the payload commits
(no null filename entries) and the record satisfied the schema constraints. -/
theorem claim_C10 (db : List HistoryRecordRow) (rid t : String)
    (gen : List (Option String)) (r : HistoryRecordRow)
    (hf : db.find? (fun x => decide (x.id = rid)) = some r)
    (ht : t ≠ "")
    (hgen : gen.all (fun o => o.isSome) = true)
    (himg : r.images.all (fun i => i.filename.isSome) = true)
    (hpg : (r.pages.map (fun p => p.page_index)).Nodup) :
    (update_record db rid none (some ⟨some t, gen⟩) none none).1 = true ∧
    ∃ r2, (update_record db rid none (some ⟨some t, gen⟩) none none).2.find?
        (fun x => decide (x.id = rid)) = some r2 ∧ r2.task_id = some t := by
  have hrid : r.id = rid := by
    have hsome := List.find?_some hf
    simpa using hsome
  have happ : applyThumbnail (applyStatus (applyImages (applyOutline r none)
      (some ⟨some t, gen⟩)) none) none =
      { r with
        task_id := some t,
        images := if gen = [] then r.images
          else (List.enumFrom 0 gen).map (fun p => (⟨p.1, p.2⟩ : TaskImageRow)) } := by
    simp only [applyOutline, applyImages, applyStatus, applyThumbnail]
    by_cases hg : gen = [] <;> simp [ht, hg, List.enum]
  have hok : commit_ok
      { r with
        task_id := some t,
        images := if gen = [] then r.images
          else (List.enumFrom 0 gen).map (fun p => (⟨p.1, p.2⟩ : TaskImageRow)) } = true := by
    unfold commit_ok
    by_cases hg : gen = [] <;> simp [hg, himg, hpg, all_isSome_enumFrom_map, hgen]
  unfold update_record
  rw [hf]
  dsimp only
  rw [happ, if_pos hok]
  exact ⟨rfl, ⟨_, find?_map_update_id db rid r _ hf hrid, rfl⟩⟩

/-- C10 witness: a concrete update with a non-empty task_id and one non-null
generated entry overwrites the record's previously absent task_id. -/
theorem claim_C10_witness :
    (update_record [⟨"id10", none, "draft", none, "", [], []⟩] "id10" none
        (some ⟨some "t10", [some "0.png"]⟩) none none).1 = true ∧
    ∃ r2, (update_record [⟨"id10", none, "draft", none, "", [], []⟩] "id10" none
        (some ⟨some "t10", [some "0.png"]⟩) none none).2.find?
        (fun x => decide (x.id = "id10")) = some r2 ∧ r2.task_id = some "t10" :=
  claim_C10 [⟨"id10", none, "draft", none, "", [], []⟩] "id10" "t10" [some "0.png"]
    ⟨"id10", none, "draft", none, "", [], []⟩ (by decide) (by decide) (by decide) (by decide)
    (by decide)
